import Mathlib

/-!
Verification of the cohort construction and field-resolution engine of the
MOVR datahub analytics repository (src/movr/cohorts/manager.py and
src/movr/cohorts/validation.py).

The embedding models a pandas DataFrame as a list of column names together
with a list of rows; a row is a total function from column names to values.
Only the values of a row at the frame's columns are ever consulted by the
embedded operations, mirroring the fact that pandas would raise on access
to a missing column.  Cell values are modelled by the inductive type
`Value`; pandas/NumPy floats are modelled by rationals, datetimes by an
integer day number, and NaN/NaT/None uniformly by `Value.null`.

Pandas comparison semantics are modelled explicitly:
- `==` on a column (`peq`) is false whenever either side is null
  (NaN == x is False in pandas), otherwise structural equality;
- `!=` (`pne`) is its boolean negation (NaN != x is True in pandas);
- `>=`/`<=` compare numerics with numerics, strings with strings and
  dates with dates, and are false when either side is null;
- `isin` and the merge join key use structural equality (pandas `isin`
  and `merge` both treat NaN as matching NaN);
- `drop_duplicates` keeps the first occurrence.

The date parser `pd.to_datetime(..., errors="coerce")` is passed in as an
explicit function parameter `parse : Value → Option Int` (unparseable or
null birth dates yield `none`); nothing in the development depends on its
internals.  `datetime.now()` is abstracted to the integer day `today`, so
`(now - dob).dt.days` becomes plain integer subtraction.
-/

/-- Cell values of a tabular dataset. -/
inductive Value where
  | null : Value
  | str : String → Value
  | bool : Bool → Value
  | int : Int → Value
  | num : ℚ → Value
  | date : Int → Value
deriving DecidableEq, Repr

/-- Pandas elementwise equality: null (NaN) compares unequal to everything,
including itself; other values compare structurally. -/
def peq : Value → Value → Bool
  | Value.null, _ => false
  | _, Value.null => false
  | a, b => decide (a = b)

/-- Pandas elementwise less-or-equal, used for range filters: numerics
compare with numerics, strings with strings, dates with dates; any
comparison involving null is false. -/
def vle : Value → Value → Bool
  | Value.int a, Value.int b => decide (a ≤ b)
  | Value.int a, Value.num b => decide ((a : ℚ) ≤ b)
  | Value.num a, Value.int b => decide (a ≤ (b : ℚ))
  | Value.num a, Value.num b => decide (a ≤ b)
  | Value.str a, Value.str b => decide (a ≤ b)
  | Value.date a, Value.date b => decide (a ≤ b)
  | _, _ => false

/-- A row of a tabular dataset: a total assignment of values to column
names.  Only the columns listed in the owning frame are meaningful. -/
def Row : Type := String → Value

/-- A tabular dataset: ordered column names plus ordered rows. -/
structure DF where
  cols : List String
  rows : List Row

/-- The empty DataFrame, `pd.DataFrame()`. -/
def emptyDF : DF := ⟨[], []⟩

/-- Pandas `df.empty`: true when either axis has length zero. -/
def DF.isEmptyDF (df : DF) : Bool := df.rows.isEmpty || df.cols.isEmpty

/-- The patient-identifier values of a frame, in row order, duplicates
included (the `FACPATID` column). -/
def ids (df : DF) : List Value := df.rows.map (fun r => r "FACPATID")

/-- A single-column cohort row holding one patient identifier. -/
def canonRow (p : Value) : Row := fun c => if c = "FACPATID" then p else Value.null

/-- Deduplication keeping the first occurrence, as pandas
`drop_duplicates` and `Series.unique` do. -/
def dedupFirstAux (seen : List Value) : List Value → List Value
  | [] => []
  | v :: vs =>
    if v ∈ seen then dedupFirstAux seen vs else v :: dedupFirstAux (v :: seen) vs

/-- Deduplicate a value list keeping first occurrences. -/
def dedupFirst (l : List Value) : List Value := dedupFirstAux [] l

/-- Distinct values of one column of a frame, in order of first
appearance: `df[col].unique()`. -/
def uniqueVals (df : DF) (col : String) : List Value :=
  dedupFirst (df.rows.map (fun r => r col))

/-- Restriction of a filtered frame to its deduplicated identifier
column: `cohort[["FACPATID"]].drop_duplicates()`. -/
def toCohortDF (df : DF) : DF :=
  ⟨["FACPATID"], (dedupFirst (ids df)).map canonRow⟩

/-- Keep the rows of a frame satisfying a boolean predicate
(`df[mask]` for an elementwise mask). -/
def DF.filterRows (df : DF) (p : Row → Bool) : DF := ⟨df.cols, df.rows.filter p⟩

/-- Row of a left merge where the key matched: left columns take the left
row's values, remaining right columns take the right row's values. -/
def joinRow (srcCols demCols : List String) (r d : Row) : Row :=
  fun c => if c ∈ srcCols then r c else if c ∈ demCols then d c else Value.null

/-- Row of a left merge where the key found no match on the right: right
columns are null-padded. -/
def padRow (srcCols : List String) (r : Row) : Row :=
  fun c => if c ∈ srcCols then r c else Value.null

/-- Left merge on the patient-identifier column,
`src.merge(dem, on="FACPATID", how="left")`.  Every left row is retained;
a left row with k matching right rows yields k merged rows, and a left
row with no match yields one null-padded row.  (In the engine the left
frame is always a single-column cohort, so no column-name collision and
hence no pandas suffixing can occur.) -/
def merge (src dem : DF) : DF :=
  ⟨src.cols ++ dem.cols.filter (fun c => decide (¬ c ∈ src.cols)),
   src.rows.flatMap (fun r =>
     let ms := dem.rows.filter (fun d => decide (d "FACPATID" = r "FACPATID"))
     if ms.isEmpty then [padRow src.cols r] else ms.map (joinRow src.cols dem.cols r))⟩

/-- Keep the rows selected by a positional boolean mask, as
`df[mask]` for a mask computed by a custom filter function. -/
def maskRows (df : DF) (mask : List Bool) : DF :=
  ⟨df.cols, (df.rows.zip mask).filterMap (fun rb => if rb.2 then some rb.1 else none)⟩

/-! ## FieldResolver (manager.py lines 18-106) -/

/-- Builtin `FieldResolver.DEFAULT_MAPPINGS`; the "age" entry is `None`
in the source (a derived field), hence `none` here, indistinguishable
from an absent key under `dict.get`. -/
def DEFAULT_MAPPINGS : String → Option String
  | "disease" => some "dstype"
  | "registry" => some "usndr"
  | "gender" => some "gender"
  | "birth_date" => some "dob"
  | "patient_id" => some "FACPATID"
  | "enrollment_date" => some "enroldt"
  | "encounter_date" => some "encntdt"
  | _ => none

/-- Hardcoded synonym lists from `FieldResolver.resolve`. -/
def fallbacks : String → List String
  | "disease" => ["dstype", "DISEASE", "DIAGNOSIS"]
  | "registry" => ["usndr", "REGISTRY", "DATA_SOURCE"]
  | "gender" => ["gender", "sex", "GENDER", "SEX"]
  | "age" => ["AGE", "age", "AGE_YEARS"]
  | _ => []

/-- Python truthiness of `a or b` over optional strings: `None` and the
empty string fall through to the second operand. -/
def pyOrOpt : Option String → Option String → Option String
  | some s, b => if s = "" then b else some s
  | none, b => b

/-- ASCII lowercasing, `str.lower()` on column names. -/
def strLower (s : String) : String := ⟨s.data.map Char.toLower⟩

/-- A loaded field-mapping configuration: canonical field name to
configured physical column name (`FieldResolver._mappings`; `none`
covers both an absent key and an explicit null `source_field`). -/
def Config : Type := String → Option String

/-- Tiers 2 and 3 of `FieldResolver.resolve`: first case-insensitive
column match, then first present hardcoded synonym. -/
def resolveLate (canonical : String) (cols : List String) : Option String :=
  match cols.find? (fun c => decide (strLower c = strLower canonical)) with
  | some c => some c
  | none => (fallbacks canonical).find? (fun f => decide (f ∈ cols))

/-- `FieldResolver.resolve(canonical_name, df)` over the column list of
the frame: configured (or default) mapping if present as a column, else
case-insensitive match, else hardcoded synonyms, else `none`. -/
def FieldResolver.resolve (cfg : Config) (canonical : String) (cols : List String) :
    Option String :=
  match pyOrOpt (cfg canonical) (DEFAULT_MAPPINGS canonical) with
  | some mapped =>
    if mapped ≠ "" ∧ mapped ∈ cols then some mapped else resolveLate canonical cols
  | none => resolveLate canonical cols

/-- `CohortManager._resolve_filter_field`: a literal column name wins
over canonical resolution. -/
def resolveFilterField (cfg : Config) (field : String) (cols : List String) :
    Option String :=
  if field ∈ cols then some field else FieldResolver.resolve cfg field cols

/-! ## CohortManager state and cohort bookkeeping -/

/-- First-match association-list lookup (Python `dict` access). -/
def lookupKey {α : Type} (k : String) : List (String × α) → Option α
  | [] => none
  | (k', v) :: rest => if k' = k then some v else lookupKey k rest

/-- Association-list update: `d[k] = v` on a Python dict (overwrite in
place, append when absent). -/
def setKey {α : Type} (k : String) (v : α) : List (String × α) → List (String × α)
  | [] => [(k, v)]
  | (k', v') :: rest => if k' = k then (k, v) :: rest else (k', v') :: setKey k v rest

/-- The Tabular Store: table name to frame. -/
def Tables : Type := List (String × DF)

/-- State of a `CohortManager`: the Tabular Store, the loaded field
mappings, the derived demographics table as returned by
`_get_demographics` (the age-augmented copy when a demographics table
exists, the empty frame otherwise), and the named cohort mapping. -/
structure Manager where
  cfg : Config
  tables : Tables
  demographics : DF
  cohorts : List (String × DF)

/-! ## Filter values and single-filter application
(manager.py lines 155-189 and 277-313) -/

/-- The runtime shapes a filter value can take in `filter_cohort`,
decided by `isinstance` checks in the source: a `min`/`max` dict, a
2-tuple, a list, or any other (scalar) value. -/
inductive FilterValue where
  | range : Option Value → Option Value → FilterValue
  | pair : Value → Value → FilterValue
  | vlist : List Value → FilterValue
  | scalar : Value → FilterValue
deriving DecidableEq, Repr

/-- The registry truthiness test of `_apply_registry_filter`:
`value is True or value == "usndr" or value == "USNDR"`. -/
def registryTruthy : FilterValue → Bool
  | FilterValue.scalar (Value.bool true) => true
  | FilterValue.scalar (Value.str s) => decide (s = "usndr" ∨ s = "USNDR")
  | _ => false

/-- Value-shape dispatch of `filter_cohort` on a resolved column:
range dict (each bound optional, applied as successive selections),
legacy 2-tuple range, list membership, or exact equality. -/
def applyValueFilter (col : String) (v : FilterValue) (df : DF) : DF :=
  match v with
  | FilterValue.range mn mx =>
    let df1 := match mn with
      | some lo => df.filterRows (fun r => vle lo (r col))
      | none => df
    match mx with
    | some hi => df1.filterRows (fun r => vle (r col) hi)
    | none => df1
  | FilterValue.pair lo hi =>
    df.filterRows (fun r => vle lo (r col) && vle (r col) hi)
  | FilterValue.vlist vs => df.filterRows (fun r => decide (r col ∈ vs))
  | FilterValue.scalar s => df.filterRows (fun r => peq (r col) s)

/-- `CohortManager._apply_registry_filter`: truthy keeps rows whose
registry column is exactly `True`; anything else keeps the complement
(nulls included); an unresolvable registry column leaves the frame
unchanged. -/
def applyRegistryFilter (cfg : Config) (df : DF) (v : FilterValue) : DF :=
  match resolveFilterField cfg "registry" df.cols with
  | none => df
  | some rcol =>
    if registryTruthy v then df.filterRows (fun r => peq (r rcol) (Value.bool true))
    else df.filterRows (fun r => !peq (r rcol) (Value.bool true))

/-- One iteration of the filter loop of `filter_cohort`: the "registry"
field is special-cased; otherwise the field is resolved against the
working frame (unresolvable fields are skipped) and the value-shape
dispatch applied. -/
def applyOneFilter (cfg : Config) (df : DF) (field : String) (v : FilterValue) : DF :=
  if field = "registry" then applyRegistryFilter cfg df v
  else
    match resolveFilterField cfg field df.cols with
    | none => df
    | some col => applyValueFilter col v df

/-! ## Pipeline of filter_cohort (manager.py lines 234-324) -/

/-- Join of the source cohort against the derived demographics table;
skipped when that table is empty. -/
def frameStep (dem : DF) (src : DF) : DF :=
  if dem.isEmptyDF then src else merge src dem

/-- The filter loop, folding `applyOneFilter` over the caller-supplied
field/value pairs in order. -/
def filterStep (cfg : Config) (filters : List (String × FilterValue)) (df : DF) : DF :=
  filters.foldl (fun acc fv => applyOneFilter cfg acc fv.1 fv.2) df

/-- The optional custom filter, applied last: the function receives the
working frame and returns a positional boolean mask. -/
def maskStep (custom : Option (DF → List Bool)) (df : DF) : DF :=
  match custom with
  | none => df
  | some f => maskRows df (f df)

/-- `CohortManager.filter_cohort(source_cohort, name, filters,
custom_filter)`.  Unknown source cohorts raise; a non-empty demographics
frame without the `FACPATID` join key would make `pd.merge` raise, also
modelled as an error.  Otherwise the source cohort is joined against
demographics, the filters and custom mask applied, the surviving
identifiers deduplicated and stored under the new name. -/
def CohortManager.filter_cohort (m : Manager) (source name : String)
    (filters : List (String × FilterValue)) (custom : Option (DF → List Bool)) :
    Except String (Manager × DF) :=
  match lookupKey source m.cohorts with
  | none => Except.error ("Source cohort not found: " ++ source)
  | some src =>
    if m.demographics.isEmptyDF = false ∧
        ("FACPATID" ∉ src.cols ∨ "FACPATID" ∉ m.demographics.cols) then
      Except.error "merge key FACPATID missing"
    else
      let result := toCohortDF (maskStep custom (filterStep m.cfg filters (frameStep m.demographics src)))
      Except.ok ({ m with cohorts := setKey name result m.cohorts }, result)

/-! ## EnrollmentValidator (validation.py) -/

/-- `EnrollmentValidator.get_enrolled_patients(required_forms)`: collect
the distinct-identifier set of every required form present in the store
(absent forms are skipped with a warning), raise when no form is
present, and intersect otherwise. -/
def EnrollmentValidator.get_enrolled_patients (tables : Tables)
    (required_forms : List String) : Except String (List Value) :=
  let patient_sets := required_forms.filterMap
    (fun f => (lookupKey f tables).map (fun df => uniqueVals df "FACPATID"))
  match patient_sets with
  | [] => Except.error "No required forms found in tables"
  | s :: rest => Except.ok (rest.foldl (fun acc t => acc.filter (fun p => decide (p ∈ t))) s)

/-- Distinct patients of one form, substituting the empty set for a form
absent from the store (as `validate_enrollment` does). -/
def formPatients (tables : Tables) (f : String) : List Value :=
  match lookupKey f tables with
  | some df => uniqueVals df "FACPATID"
  | none => []

/-- The enrollment report of `validate_enrollment`.  The two per-form
dicts are modelled as finite maps with domain the required-form names. -/
structure Report where
  enrolled_count : Nat
  total_unique_patients : Nat
  enrolled_patients : List Value
  form_counts : String → Option Nat
  missing_by_form : String → Option Nat

/-- `EnrollmentValidator.validate_enrollment(required_forms)`: per-form
distinct-patient sets (empty for absent forms), enrolled = intersection
of all of them, universe = union, and per-form counts of universe
members missing from each form.  An empty required-form list yields the
all-zero report, not an error. -/
def EnrollmentValidator.validate_enrollment (tables : Tables)
    (required_forms : List String) : Report :=
  let sets := required_forms.map (fun f => formPatients tables f)
  let enrolled := match sets with
    | [] => []
    | s :: rest => rest.foldl (fun acc t => acc.filter (fun p => decide (p ∈ t))) s
  let uni := dedupFirst sets.flatten
  { enrolled_count := enrolled.length
    total_unique_patients := uni.length
    enrolled_patients := enrolled
    form_counts := fun f =>
      if f ∈ required_forms then some (formPatients tables f).length else none
    missing_by_form := fun f =>
      if f ∈ required_forms then
        some ((uni.filter (fun p => decide (p ∉ formPatients tables f))).length)
      else none }

/-- `CohortManager.create_base_cohort(name, require_forms,
validate_enrollment)`: seeds a cohort either from enrollment validation
or from the distinct patients of the demographics table. -/
def CohortManager.create_base_cohort (m : Manager) (name : String)
    (require_forms : List String) (validate : Bool) : Except String (Manager × DF) :=
  let pats : Except String (List Value) :=
    if validate then EnrollmentValidator.get_enrolled_patients m.tables require_forms
    else
      match lookupKey "demographics_maindata" m.tables with
      | some df => Except.ok (uniqueVals df "FACPATID")
      | none => Except.error "demographics_maindata table not found"
  match pats with
  | Except.error e => Except.error e
  | Except.ok ps =>
    let cohort : DF := ⟨["FACPATID"], ps.map canonRow⟩
    Except.ok ({ m with cohorts := setKey name cohort m.cohorts }, cohort)

/-! ## Derived demographics and age (manager.py lines 128-153) -/

/-- Round-half-to-even on rationals, the rounding mode of NumPy
`Series.round` and Python `round`. -/
def roundHalfEven (q : ℚ) : ℤ :=
  let f := ⌊q⌋
  let r := q - (f : ℚ)
  if r < 1/2 then f
  else if 1/2 < r then f + 1
  else if f % 2 = 0 then f else f + 1

/-- Rounding to one decimal place, `round(x, 1)` / `.round(1)`. -/
def round1 (q : ℚ) : ℚ := ((roundHalfEven (10 * q) : ℚ)) / 10

/-- The age value computed from a parsed birth date:
`((today - dob).dt.days / 365.25).round(1)`. -/
def ageFromDob (today dob : Int) : ℚ := round1 (((today - dob : Int) : ℚ) / (365.25 : ℚ))

/-- One row of the age augmentation: the birth-date column is replaced
by its coerced parse (null when unparseable) and an "AGE" cell is
appended, null exactly when the birth date did not parse. -/
def ageRow (dobCol : String) (parse : Value → Option Int) (today : Int) (r : Row) : Row :=
  fun c =>
    if c = "AGE" then
      match parse (r dobCol) with
      | some d => Value.num (ageFromDob today d)
      | none => Value.null
    else if c = dobCol then
      match parse (r dobCol) with
      | some d => Value.date d
      | none => Value.null
    else r c

/-- Augmentation of the demographics frame with the computed "AGE"
column. -/
def addAge (dobCol : String) (parse : Value → Option Int) (today : Int) (df : DF) : DF :=
  ⟨df.cols ++ ["AGE"], df.rows.map (ageRow dobCol parse today)⟩

/-- `CohortManager._prepare_demographics`: when a demographics table
exists, copy it and — if a birth-date column resolves and "AGE" is not
already a column — coerce the birth dates and append the computed AGE
column.  Returns `none` when no demographics table exists (the manager
then falls back to the empty frame). -/
def prepare_demographics (cfg : Config) (parse : Value → Option Int) (today : Int)
    (tables : Tables) : Option DF :=
  match lookupKey "demographics_maindata" tables with
  | none => none
  | some df =>
    match FieldResolver.resolve cfg "birth_date" df.cols with
    | some dobCol =>
      if "AGE" ∈ df.cols then some df else some (addAge dobCol parse today df)
    | none => some df

/-- Construction of a `CohortManager` over a Tabular Store:
`_prepare_demographics` runs once and the cohort mapping starts empty
(`_get_demographics` yields the empty frame when no demographics table
exists). -/
def CohortManager.mk (cfg : Config) (parse : Value → Option Int) (today : Int)
    (tables : Tables) : Manager :=
  { cfg := cfg
    tables := tables
    demographics := (prepare_demographics cfg parse today tables).getD emptyDF
    cohorts := [] }

/-! ## Cohort summary (manager.py lines 405-461) -/

/-- The age statistics block of a cohort summary. -/
structure AgeStats where
  mean : ℚ
  median : ℚ
  min : ℚ
  max : ℚ
deriving DecidableEq, Repr

/-- Numeric coercion used when aggregating a column: numerics map to
themselves, booleans to 0/1 as NumPy does; the engine only aggregates
the numeric AGE column, where the other cases cannot arise. -/
def Value.toQ : Value → ℚ
  | Value.int n => (n : ℚ)
  | Value.num q => q
  | Value.date d => (d : ℚ)
  | Value.bool b => if b then 1 else 0
  | _ => 0

/-- Insertion into a sorted rational list. -/
def insertSorted (x : ℚ) : List ℚ → List ℚ
  | [] => [x]
  | y :: ys => if x ≤ y then x :: y :: ys else y :: insertSorted x ys

/-- Insertion sort of a rational list. -/
def sortQ (l : List ℚ) : List ℚ := l.foldr insertSorted []

/-- Arithmetic mean (`Series.mean` over the non-null values). -/
def meanQ (l : List ℚ) : ℚ := if l.length = 0 then 0 else l.sum / (l.length : ℚ)

/-- Median with the pandas convention: middle element for odd length,
mean of the two middle elements for even length. -/
def medianQ (l : List ℚ) : ℚ :=
  let s := sortQ l
  let n := s.length
  if n = 0 then 0
  else if n % 2 = 1 then s.getD (n / 2) 0
  else (s.getD (n / 2 - 1) 0 + s.getD (n / 2) 0) / 2

/-- Minimum of a list of rationals (0 for the empty list, never used). -/
def minQ : List ℚ → ℚ
  | [] => 0
  | x :: xs => xs.foldl min x

/-- Maximum of a list of rationals (0 for the empty list, never used). -/
def maxQ : List ℚ → ℚ
  | [] => 0
  | x :: xs => xs.foldl max x

/-- `Series.value_counts().to_dict()`: occurrence counts of the distinct
non-null values of a column (pandas drops NaN; dict order immaterial). -/
def valueCounts (vals : List Value) : List (Value × Nat) :=
  let nn := vals.filter (fun v => decide (v ≠ Value.null))
  (dedupFirst nn).map (fun v => (v, (nn.filter (fun w => decide (w = v))).length))

/-- The summary dictionary of `get_cohort_summary`; optional blocks are
present exactly when the corresponding canonical field resolves (and,
for age, some non-null value exists). -/
structure Summary where
  sname : String
  n_patients : Nat
  gender_distribution : Option (List (Value × Nat)) := none
  age_stats : Option AgeStats := none
  disease_distribution : Option (List (Value × Nat)) := none
  registry_distribution : Option (Nat × Nat) := none

/-- The age-statistics block over the non-null values of the resolved
age column: `{mean, median, min, max}`, each rounded to one decimal,
omitted when every value is null. -/
def ageStatsOf (vals : List Value) : Option AgeStats :=
  let nn := vals.filter (fun v => decide (v ≠ Value.null))
  if nn.isEmpty then none
  else
    let qs := nn.map Value.toQ
    some { mean := round1 (meanQ qs), median := round1 (medianQ qs),
           min := round1 (minQ qs), max := round1 (maxQ qs) }

/-- `CohortManager.get_cohort_summary(name)`: fails on an unknown cohort
name; degrades to name and patient count when demographics is empty;
otherwise joins the cohort against demographics and adds a distribution
or statistics block for each of gender, age, disease and registry that
resolves against the joined frame. -/
def CohortManager.get_cohort_summary (m : Manager) (name : String) :
    Except String Summary :=
  match lookupKey name m.cohorts with
  | none => Except.error ("Cohort not found: " ++ name)
  | some cohort =>
    if m.demographics.isEmptyDF then
      Except.ok { sname := name, n_patients := cohort.rows.length }
    else if "FACPATID" ∉ cohort.cols ∨ "FACPATID" ∉ m.demographics.cols then
      Except.error "merge key FACPATID missing"
    else
      let merged := merge cohort m.demographics
      Except.ok
        { sname := name
          n_patients := cohort.rows.length
          gender_distribution := (resolveFilterField m.cfg "gender" merged.cols).map
            (fun c => valueCounts (merged.rows.map (fun r => r c)))
          age_stats :=
            match resolveFilterField m.cfg "age" merged.cols with
            | none => none
            | some c => ageStatsOf (merged.rows.map (fun r => r c))
          disease_distribution := (resolveFilterField m.cfg "disease" merged.cols).map
            (fun c => valueCounts (merged.rows.map (fun r => r c)))
          registry_distribution := (resolveFilterField m.cfg "registry" merged.cols).map
            (fun c =>
              let u := (merged.rows.filter (fun r => peq (r c) (Value.bool true))).length
              (u, merged.rows.length - u)) }

/-! ## Basic lemmas: deduplication, association lists, row filtering -/

theorem mem_dedupFirstAux (a : Value) (l seen : List Value) :
    a ∈ dedupFirstAux seen l ↔ a ∈ l ∧ a ∉ seen := by
  induction l generalizing seen with
  | nil => simp [dedupFirstAux]
  | cons v vs ih =>
    by_cases hv : v ∈ seen
    · simp only [dedupFirstAux, if_pos hv, ih, List.mem_cons]
      constructor
      · rintro ⟨h1, h2⟩; exact ⟨Or.inr h1, h2⟩
      · rintro ⟨h1 | h1, h2⟩
        · exact absurd (h1 ▸ hv) h2
        · exact ⟨h1, h2⟩
    · simp only [dedupFirstAux, if_neg hv, List.mem_cons, ih]
      by_cases hav : a = v
      · subst hav; simp [hv]
      · simp [hav]

theorem nodup_dedupFirstAux (l seen : List Value) : (dedupFirstAux seen l).Nodup := by
  induction l generalizing seen with
  | nil => simp [dedupFirstAux]
  | cons v vs ih =>
    by_cases hv : v ∈ seen
    · simpa [dedupFirstAux, if_pos hv] using ih seen
    · rw [dedupFirstAux, if_neg hv, List.nodup_cons]
      refine ⟨fun hmem => ?_, ih (v :: seen)⟩
      rcases (mem_dedupFirstAux v vs (v :: seen)).1 hmem with ⟨_, h2⟩
      exact h2 (List.mem_cons_self v seen)

theorem mem_dedupFirst (a : Value) (l : List Value) : a ∈ dedupFirst l ↔ a ∈ l := by
  simp [dedupFirst, mem_dedupFirstAux]

theorem nodup_dedupFirst (l : List Value) : (dedupFirst l).Nodup :=
  nodup_dedupFirstAux l []

theorem lookupKey_setKey_self {α : Type} (k : String) (v : α) (l : List (String × α)) :
    lookupKey k (setKey k v l) = some v := by
  induction l with
  | nil => simp [setKey, lookupKey]
  | cons hd tl ih =>
    by_cases h : hd.1 = k
    · simp [setKey, lookupKey, h]
    · simp only [setKey, lookupKey]
      rw [if_neg h, lookupKey, if_neg h]
      exact ih

theorem lookupKey_setKey_ne {α : Type} (k k' : String) (v : α) (l : List (String × α))
    (h : k' ≠ k) : lookupKey k' (setKey k v l) = lookupKey k' l := by
  have hk' : ¬ k = k' := fun he => h he.symm
  induction l with
  | nil => simp [setKey, lookupKey, hk']
  | cons hd tl ih =>
    by_cases hh : hd.1 = k
    · simp only [setKey, if_pos hh, lookupKey]
      rw [if_neg hk', if_neg (hh ▸ (fun he => h he.symm) : ¬ hd.1 = k')]
    · simp only [setKey, if_neg hh, lookupKey]
      by_cases hk : hd.1 = k'
      · rw [if_pos hk, if_pos hk]
      · rw [if_neg hk, if_neg hk]; exact ih

theorem DF.filterRows_cols (df : DF) (p : Row → Bool) : (df.filterRows p).cols = df.cols := rfl

theorem DF.filterRows_true (df : DF) : df.filterRows (fun _ => true) = df := by
  cases df with
  | mk cols rows => simp [DF.filterRows]

theorem mem_filterRows (df : DF) (p : Row → Bool) (w : Row) :
    w ∈ (df.filterRows p).rows ↔ w ∈ df.rows ∧ p w = true := by
  simp [DF.filterRows, List.mem_filter]

/-! ## The filter loop as a single row predicate -/

/-- The row predicate corresponding to one filter value on a resolved
column (range bounds combine conjunctively, as the two successive
selections of the source do). -/
def valuePred (col : String) : FilterValue → Row → Bool
  | FilterValue.range mn mx => fun r =>
    (match mn with | some lo => vle lo (r col) | none => true) &&
    (match mx with | some hi => vle (r col) hi | none => true)
  | FilterValue.pair lo hi => fun r => vle lo (r col) && vle (r col) hi
  | FilterValue.vlist vs => fun r => decide (r col ∈ vs)
  | FilterValue.scalar s => fun r => peq (r col) s

theorem applyValueFilter_eq (col : String) (v : FilterValue) (df : DF) :
    applyValueFilter col v df = df.filterRows (valuePred col v) := by
  cases v with
  | range mn mx =>
    cases mn with
    | none =>
      cases mx with
      | none => simp [applyValueFilter, valuePred, DF.filterRows_true]
      | some hi => simp [applyValueFilter, valuePred]
    | some lo =>
      cases mx with
      | none => simp [applyValueFilter, valuePred]
      | some hi =>
        simp only [applyValueFilter, valuePred, DF.filterRows]
        refine congrArg (DF.mk df.cols) ?_
        rw [List.filter_filter]
        exact List.filter_congr (fun r _ => by rw [Bool.and_comm])
  | pair lo hi => rfl
  | vlist vs => rfl
  | scalar s => rfl

/-- The row predicate of one iteration of the filter loop, a function of
the working frame's columns only. -/
def oneFilterPred (cfg : Config) (cols : List String) (field : String) (v : FilterValue) :
    Row → Bool :=
  if field = "registry" then
    match resolveFilterField cfg "registry" cols with
    | none => fun _ => true
    | some rcol =>
      if registryTruthy v then fun r => peq (r rcol) (Value.bool true)
      else fun r => !peq (r rcol) (Value.bool true)
  else
    match resolveFilterField cfg field cols with
    | none => fun _ => true
    | some col => valuePred col v

theorem applyOneFilter_eq (cfg : Config) (df : DF) (field : String) (v : FilterValue) :
    applyOneFilter cfg df field v = df.filterRows (oneFilterPred cfg df.cols field v) := by
  by_cases hreg : field = "registry"
  · subst hreg
    simp only [applyOneFilter, applyRegistryFilter, oneFilterPred, if_pos rfl]
    cases hres : resolveFilterField cfg "registry" df.cols with
    | none => simp [DF.filterRows_true]
    | some rcol => by_cases ht : registryTruthy v <;> simp [ht]
  · simp only [applyOneFilter, oneFilterPred, if_neg hreg]
    cases hres : resolveFilterField cfg field df.cols with
    | none => simp [DF.filterRows_true]
    | some col => simp [applyValueFilter_eq]

theorem applyOneFilter_cols (cfg : Config) (df : DF) (field : String) (v : FilterValue) :
    (applyOneFilter cfg df field v).cols = df.cols := by
  rw [applyOneFilter_eq]; rfl

theorem filterStep_cols (cfg : Config) (fs : List (String × FilterValue)) (df : DF) :
    (filterStep cfg fs df).cols = df.cols := by
  induction fs generalizing df with
  | nil => rfl
  | cons f rest ih =>
    simp only [filterStep, List.foldl_cons]
    rw [show (List.foldl (fun acc fv => applyOneFilter cfg acc fv.1 fv.2) (applyOneFilter cfg df f.1 f.2) rest) = filterStep cfg rest (applyOneFilter cfg df f.1 f.2) from rfl]
    rw [ih, applyOneFilter_cols]

theorem filterStep_rows_subset (cfg : Config) (fs : List (String × FilterValue)) (df : DF)
    (w : Row) (hw : w ∈ (filterStep cfg fs df).rows) : w ∈ df.rows := by
  induction fs generalizing df with
  | nil => exact hw
  | cons f rest ih =>
    have h1 : w ∈ (applyOneFilter cfg df f.1 f.2).rows := ih _ hw
    rw [applyOneFilter_eq] at h1
    exact ((mem_filterRows _ _ _).1 h1).1

theorem maskStep_cols (custom : Option (DF → List Bool)) (df : DF) :
    (maskStep custom df).cols = df.cols := by
  cases custom with
  | none => rfl
  | some f => rfl

theorem maskStep_rows_subset (custom : Option (DF → List Bool)) (df : DF) (w : Row)
    (hw : w ∈ (maskStep custom df).rows) : w ∈ df.rows := by
  cases custom with
  | none => exact hw
  | some f =>
    simp only [maskStep, maskRows, List.mem_filterMap] at hw
    rcases hw with ⟨⟨r, b⟩, hmem, hif⟩
    rcases List.of_mem_zip hmem with ⟨h1, _⟩
    by_cases hb : b = true
    · subst hb
      simp only [if_true] at hif
      rw [Option.some.injEq] at hif
      exact hif ▸ h1
    · simp [hb] at hif

/-! ## Cohort shape invariant and the merged working frame -/

/-- Shape of every cohort the manager stores: a single `FACPATID`
column, canonical single-value rows, and no duplicate identifiers. -/
structure CohortWF (df : DF) : Prop where
  cols_eq : df.cols = ["FACPATID"]
  rows_canon : ∀ r ∈ df.rows, r = canonRow (r "FACPATID")
  ids_nodup : (ids df).Nodup

theorem canonRow_id (p : Value) : canonRow p "FACPATID" = p := by simp [canonRow]

theorem ids_toCohortDF (df : DF) : ids (toCohortDF df) = dedupFirst (ids df) := by
  simp only [ids, toCohortDF, List.map_map]
  exact List.map_congr_left (fun p _ => canonRow_id p) |>.trans (List.map_id _)

theorem mem_ids_toCohortDF (df : DF) (p : Value) :
    p ∈ ids (toCohortDF df) ↔ p ∈ ids df := by
  rw [ids_toCohortDF]; exact mem_dedupFirst p (ids df)

theorem toCohortDF_wf (df : DF) : CohortWF (toCohortDF df) := by
  refine ⟨rfl, ?_, ?_⟩
  · intro r hr
    simp only [toCohortDF, List.mem_map] at hr
    rcases hr with ⟨p, _, rfl⟩
    rw [canonRow_id]
  · rw [ids_toCohortDF]; exact nodup_dedupFirst _

/-- Rows of a cohort frame are exactly the canonical rows of its
identifier list. -/
theorem rows_eq_map_canon (df : DF) (hwf : CohortWF df) :
    df.rows = (ids df).map canonRow := by
  simp only [ids, List.map_map]
  nth_rewrite 1 [← List.map_id df.rows]
  exact List.map_congr_left fun r hr => by
    simp only [id, Function.comp_apply]
    exact hwf.rows_canon r hr

/-- The single merged row a patient identifier contributes to the
working frame: its unique demographics match joined in, or a null-padded
row when the patient has no demographics row. -/
def mergedRowOf (dem : DF) (p : Value) : Row :=
  match dem.rows.find? (fun d => decide (d "FACPATID" = p)) with
  | some d => joinRow ["FACPATID"] dem.cols (canonRow p) d
  | none => canonRow p

/-- The row a patient identifier contributes to the working frame of
`filter_cohort`, covering the empty-demographics shortcut. -/
def frameRowOf (dem : DF) (p : Value) : Row :=
  if dem.isEmptyDF then canonRow p else mergedRowOf dem p

theorem mergedRowOf_id (dem : DF) (p : Value) : mergedRowOf dem p "FACPATID" = p := by
  unfold mergedRowOf
  cases dem.rows.find? (fun d => decide (d "FACPATID" = p)) with
  | none => exact canonRow_id p
  | some d => simp [joinRow, canonRow]

theorem frameRowOf_id (dem : DF) (p : Value) : frameRowOf dem p "FACPATID" = p := by
  unfold frameRowOf
  by_cases h : dem.isEmptyDF <;> simp [h, canonRow_id, mergedRowOf_id]

theorem padRow_canon (p : Value) : padRow ["FACPATID"] (canonRow p) = canonRow p := by
  funext c
  by_cases h : c = "FACPATID" <;> simp [padRow, canonRow, h]

theorem filter_key_of_nodup (rows : List Row) (p : Value)
    (hnd : (rows.map (fun d => d "FACPATID")).Nodup) :
    rows.filter (fun d => decide (d "FACPATID" = p)) =
      (rows.find? (fun d => decide (d "FACPATID" = p))).toList := by
  induction rows with
  | nil => simp
  | cons d ds ih =>
    rw [List.map_cons, List.nodup_cons] at hnd
    by_cases hd : d "FACPATID" = p
    · rw [List.filter_cons_of_pos (by simpa using hd),
        List.find?_cons_of_pos _ (by simpa using hd)]
      have : ds.filter (fun e => decide (e "FACPATID" = p)) = [] := by
        rw [List.filter_eq_nil_iff]
        intro e he0
        simp only [decide_eq_true_eq]
        intro he
        exact hnd.1 (hd ▸ he ▸ List.mem_map_of_mem (fun r => r "FACPATID") he0)
      rw [this]
      rfl
    · rw [List.filter_cons_of_neg (by simpa using hd),
        List.find?_cons_of_neg _ (by simpa using hd)]
      exact ih hnd.2

theorem flatMap_map_eq_map {a b c : Type} (l : List a) (g : a → b) (F : b → List c)
    (G : a → c) (h : ∀ x ∈ l, F (g x) = [G x]) : (l.map g).flatMap F = l.map G := by
  induction l with
  | nil => simp
  | cons x xs ih =>
    simp only [List.map_cons, List.flatMap_cons, h x (List.mem_cons_self x xs)]
    rw [ih (fun y hy => h y (List.mem_cons_of_mem x hy))]
    rfl

/-- Characterization of the merge against demographics: when the source
cohort is well-formed and demographics has at most one row per patient,
each source identifier contributes exactly its one merged row. -/
theorem merge_rows_of_wf (src dem : DF) (hwf : CohortWF src)
    (hnd : (dem.rows.map (fun d => d "FACPATID")).Nodup) :
    (merge src dem).rows = (ids src).map (mergedRowOf dem) := by
  have hsrc := rows_eq_map_canon src hwf
  simp only [merge, hsrc]
  refine flatMap_map_eq_map (ids src) canonRow _ (mergedRowOf dem) (fun p _ => ?_)
  simp only [canonRow_id]
  rw [filter_key_of_nodup dem.rows p hnd]
  unfold mergedRowOf
  cases hf : dem.rows.find? (fun d => decide (d "FACPATID" = p)) with
  | none => simp [hwf.cols_eq, padRow_canon]
  | some d => simp [hwf.cols_eq]

/-- The working frame of `filter_cohort` for a well-formed source and
key-unique demographics: one row per source identifier. -/
theorem frameStep_rows_of_wf (dem src : DF) (hwf : CohortWF src)
    (hnd : (dem.rows.map (fun d => d "FACPATID")).Nodup) :
    (frameStep dem src).rows = (ids src).map (frameRowOf dem) := by
  unfold frameStep frameRowOf
  by_cases h : dem.isEmptyDF
  · simp only [h, if_true]
    exact (rows_eq_map_canon src hwf).trans (by simp)
  · rw [Bool.not_eq_true] at h
    simp only [h, Bool.false_eq_true, if_false]
    exact merge_rows_of_wf src dem hwf hnd

theorem frameStep_cols_single (dem : DF) (src : DF) (hcols : src.cols = ["FACPATID"]) :
    (frameStep dem src).cols =
      if dem.isEmptyDF then ["FACPATID"]
      else "FACPATID" :: dem.cols.filter (fun c => decide (¬ c ∈ (["FACPATID"] : List String))) := by
  unfold frameStep
  by_cases h : dem.isEmptyDF
  · simp [h, hcols]
  · simp only [h, if_false, merge, hcols]
    rfl

/-- Identifiers of a filtered frame: identifiers of rows passing the
predicate. -/
theorem mem_ids_filterRows (df : DF) (q : Row → Bool) (p : Value) :
    p ∈ ids (df.filterRows q) ↔ ∃ w ∈ df.rows, q w = true ∧ w "FACPATID" = p := by
  simp only [ids, DF.filterRows, List.mem_map, List.mem_filter]
  constructor
  · rintro ⟨w, ⟨hw, hq⟩, rfl⟩; exact ⟨w, hw, hq, rfl⟩
  · rintro ⟨w, hw, hq, rfl⟩; exact ⟨w, ⟨hw, hq⟩, rfl⟩

/-- Inversion of a successful `filter_cohort` call: the source exists,
the merge key was available, and the result and new state are the
filter pipeline's output stored under the new name. -/
theorem filter_cohort_ok_inv (m : Manager) (source name : String)
    (filters : List (String × FilterValue)) (custom : Option (DF → List Bool))
    (m' : Manager) (res : DF)
    (h : CohortManager.filter_cohort m source name filters custom = Except.ok (m', res)) :
    ∃ src, lookupKey source m.cohorts = some src ∧
      (m.demographics.isEmptyDF = true ∨
        ("FACPATID" ∈ src.cols ∧ "FACPATID" ∈ m.demographics.cols)) ∧
      res = toCohortDF (maskStep custom (filterStep m.cfg filters (frameStep m.demographics src))) ∧
      m' = { m with cohorts := setKey name res m.cohorts } := by
  unfold CohortManager.filter_cohort at h
  split at h
  · exact absurd h (by simp)
  · rename_i src hl
    split at h
    · exact absurd h (by simp)
    · rename_i hc
      injection h with hpair
      rw [Prod.mk.injEq] at hpair
      obtain ⟨hm, hr⟩ := hpair
      refine ⟨src, hl, ?_, hr.symm, ?_⟩
      · rcases Decidable.not_and_iff_or_not.1 hc with h1 | h1
        · left
          cases he : m.demographics.isEmptyDF with
          | true => rfl
          | false => exact absurd he h1
        · right
          rw [not_or] at h1
          exact ⟨Decidable.not_not.1 h1.1, Decidable.not_not.1 h1.2⟩
      · rw [← hm, ← hr]

/-- Every row of the working frame carries the identifier of some source
row (the merge is a left join keyed on the source's FACPATID column). -/
theorem frame_ids_mem (dem src : DF) (w : Row)
    (hw : w ∈ (frameStep dem src).rows)
    (hk : dem.isEmptyDF = true ∨ "FACPATID" ∈ src.cols) :
    w "FACPATID" ∈ ids src := by
  unfold frameStep at hw
  by_cases he : dem.isEmptyDF
  · rw [if_pos he] at hw
    exact List.mem_map_of_mem _ hw
  · rw [if_neg he] at hw
    have hkk : "FACPATID" ∈ src.cols := by
      rcases hk with h | h
      · exact absurd h he
      · exact h
    simp only [merge, List.mem_flatMap] at hw
    rcases hw with ⟨r, hr, hw⟩
    by_cases hm : (dem.rows.filter (fun d => decide (d "FACPATID" = r "FACPATID"))).isEmpty
    · rw [if_pos hm, List.mem_singleton] at hw
      subst hw
      have hpv : padRow src.cols r "FACPATID" = r "FACPATID" := by simp [padRow, hkk]
      rw [hpv]
      exact List.mem_map_of_mem (fun r => r "FACPATID") hr
    · rw [if_neg hm, List.mem_map] at hw
      rcases hw with ⟨d, _, rfl⟩
      have hjv : joinRow src.cols dem.cols r d "FACPATID" = r "FACPATID" := by
        simp [joinRow, hkk]
      rw [hjv]
      exact List.mem_map_of_mem (fun r => r "FACPATID") hr

/-- C1.  For every cohort created by `filter_cohort`, its patient set is
a subset of the source cohort's patient set at the time of the call,
whatever the filters and custom predicate: the working frame only ever
carries identifiers of the source, and every pipeline stage only removes
rows. -/
theorem filter_cohort_subset_source (m : Manager) (source name : String)
    (filters : List (String × FilterValue)) (custom : Option (DF → List Bool))
    (m' : Manager) (res src : DF)
    (hsrc : lookupKey source m.cohorts = some src)
    (h : CohortManager.filter_cohort m source name filters custom = Except.ok (m', res)) :
    ∀ p ∈ ids res, p ∈ ids src := by
  obtain ⟨src', hsrc', hk, hres, _⟩ :=
    filter_cohort_ok_inv m source name filters custom m' res h
  rw [hsrc] at hsrc'
  injection hsrc' with he
  subst he
  intro p hp
  rw [hres, mem_ids_toCohortDF] at hp
  simp only [ids, List.mem_map] at hp
  rcases hp with ⟨w, hw, rfl⟩
  have hw2 := filterStep_rows_subset m.cfg filters _ w (maskStep_rows_subset custom _ w hw)
  refine frame_ids_mem m.demographics src w hw2 ?_
  rcases hk with hk | hk
  · exact Or.inl hk
  · exact Or.inr hk.1

/-- C10.  A successful `filter_cohort` call changes exactly one cohort
entry: the Tabular Store, the derived demographics table and the field
mappings are untouched, the target name now holds the result, and every
other cohort name resolves as before (the pipeline works on copies). -/
theorem filter_cohort_frame_effect (m : Manager) (source name : String)
    (filters : List (String × FilterValue)) (custom : Option (DF → List Bool))
    (m' : Manager) (res : DF)
    (h : CohortManager.filter_cohort m source name filters custom = Except.ok (m', res)) :
    m'.tables = m.tables ∧ m'.demographics = m.demographics ∧ m'.cfg = m.cfg ∧
      lookupKey name m'.cohorts = some res ∧
      (∀ other, other ≠ name → lookupKey other m'.cohorts = lookupKey other m.cohorts) := by
  obtain ⟨src, _, _, _, hm'⟩ :=
    filter_cohort_ok_inv m source name filters custom m' res h
  subst hm'
  exact ⟨rfl, rfl, rfl, lookupKey_setKey_self name res m.cohorts,
    fun other ho => lookupKey_setKey_ne name other res m.cohorts ho⟩

/-- C8.  Filtering is deterministic: running `filter_cohort` twice with
the same source, filters and custom predicate (only the target names
differing, the first not overwriting the source) yields cohorts with
identical patient sets — in fact identical cohort frames. -/
theorem filter_cohort_deterministic (m : Manager) (source n1 n2 : String)
    (filters : List (String × FilterValue)) (custom : Option (DF → List Bool))
    (m1 m2 : Manager) (r1 r2 : DF)
    (hn : n1 ≠ source)
    (h1 : CohortManager.filter_cohort m source n1 filters custom = Except.ok (m1, r1))
    (h2 : CohortManager.filter_cohort m1 source n2 filters custom = Except.ok (m2, r2)) :
    ids r1 = ids r2 := by
  obtain ⟨s1, hs1, _, hr1, hm1⟩ :=
    filter_cohort_ok_inv m source n1 filters custom m1 r1 h1
  obtain ⟨s2, hs2, _, hr2, _⟩ :=
    filter_cohort_ok_inv m1 source n2 filters custom m2 r2 h2
  subst hm1
  rw [show ({ m with cohorts := setKey n1 r1 m.cohorts } : Manager).cohorts
      = setKey n1 r1 m.cohorts from rfl,
    lookupKey_setKey_ne n1 source r1 m.cohorts (fun he => hn he.symm), hs1] at hs2
  injection hs2 with he
  subst he
  rw [hr1, hr2]

/-! ## Concrete fixtures for the witnesses -/

/-- A demographics row of the witness store. -/
def rowP (pid dstype gender : String) (usndr dob : Value) : Row := fun c =>
  if c = "FACPATID" then Value.str pid
  else if c = "dstype" then Value.str dstype
  else if c = "gender" then Value.str gender
  else if c = "usndr" then usndr
  else if c = "dob" then dob
  else Value.null

/-- Witness demographics table: four patients, one with a null registry
flag and one with an unparseable birth date. -/
def demW : DF :=
  ⟨["FACPATID", "dstype", "gender", "usndr", "dob"],
   [rowP "P1" "DMD" "M" (Value.bool false) (Value.str "2010-01-01"),
    rowP "P2" "DMD" "F" Value.null (Value.str "oops"),
    rowP "P3" "BMD" "F" (Value.bool true) Value.null,
    rowP "P4" "ALS" "M" (Value.bool true) (Value.str "2000-06-15")]⟩

/-- Witness base cohort of all four patients. -/
def srcW : DF :=
  ⟨["FACPATID"],
   [canonRow (Value.str "P1"), canonRow (Value.str "P2"),
    canonRow (Value.str "P3"), canonRow (Value.str "P4")]⟩

/-- Witness configuration: no configuration file loaded. -/
def cfgW : Config := fun _ => none

/-- Witness manager state with the base cohort installed. -/
def mW : Manager :=
  ⟨cfgW, [("demographics_maindata", demW)], demW, [("base", srcW)]⟩

def outC1 : Except String (Manager × DF) :=
  CohortManager.filter_cohort mW "base" "dmd"
    [("disease", FilterValue.scalar (Value.str "DMD"))] none

def mC1 : Manager := match outC1 with | Except.ok (x, _) => x | Except.error _ => mW

def resC1 : DF := match outC1 with | Except.ok (_, r) => r | Except.error _ => emptyDF

/-- Witness for C1 at a concrete store: the two members of the
disease-filtered cohort belong to the base cohort. -/
theorem filter_cohort_subset_source_witness :
    Value.str "P1" ∈ ids srcW ∧ Value.str "P2" ∈ ids srcW :=
  ⟨filter_cohort_subset_source mW "base" "dmd"
      [("disease", FilterValue.scalar (Value.str "DMD"))] none mC1 resC1 srcW rfl rfl
      (Value.str "P1") (by decide),
    filter_cohort_subset_source mW "base" "dmd"
      [("disease", FilterValue.scalar (Value.str "DMD"))] none mC1 resC1 srcW rfl rfl
      (Value.str "P2") (by decide)⟩

def outC10 : Except String (Manager × DF) :=
  CohortManager.filter_cohort mW "base" "fem"
    [("gender", FilterValue.scalar (Value.str "F"))] none

def mC10 : Manager := match outC10 with | Except.ok (x, _) => x | Except.error _ => mW

def resC10 : DF := match outC10 with | Except.ok (_, r) => r | Except.error _ => emptyDF

def outC8 : Except String (Manager × DF) :=
  CohortManager.filter_cohort mC1 "base" "dmd2"
    [("disease", FilterValue.scalar (Value.str "DMD"))] none

def mC8 : Manager := match outC8 with | Except.ok (x, _) => x | Except.error _ => mC1

def resC8 : DF := match outC8 with | Except.ok (_, r) => r | Except.error _ => emptyDF

/-- Witness for C10 at a concrete store: the gender-filter call leaves
tables, demographics and the other cohort entries untouched and installs
exactly the target entry. -/
theorem filter_cohort_frame_effect_witness :
    mC10.tables = mW.tables ∧ mC10.demographics = mW.demographics ∧ mC10.cfg = mW.cfg ∧
      lookupKey "fem" mC10.cohorts = some resC10 ∧
      (∀ other, other ≠ "fem" → lookupKey other mC10.cohorts = lookupKey other mW.cohorts) :=
  filter_cohort_frame_effect mW "base" "fem"
    [("gender", FilterValue.scalar (Value.str "F"))] none mC10 resC10 rfl

/-- Witness for C8 at a concrete store: re-running the disease filter
under a second target name reproduces the same patient set. -/
theorem filter_cohort_deterministic_witness : ids resC1 = ids resC8 :=
  filter_cohort_deterministic mW "base" "dmd" "dmd2"
    [("disease", FilterValue.scalar (Value.str "DMD"))] none mC1 mC8 resC1 resC8
    (by decide) rfl rfl

/-! ## Registry partition (C2) -/

/-- Membership in a filtered working frame, for a well-formed source and
key-unique demographics: the per-identifier frame row decides. -/
theorem mem_ids_filter_frame (dem src : DF) (hwf : CohortWF src)
    (hnd : (dem.rows.map (fun d => d "FACPATID")).Nodup) (q : Row → Bool) (p : Value) :
    p ∈ ids ((frameStep dem src).filterRows q) ↔
      p ∈ ids src ∧ q (frameRowOf dem p) = true := by
  rw [mem_ids_filterRows]
  constructor
  · rintro ⟨w, hw, hq, rfl⟩
    rw [frameStep_rows_of_wf dem src hwf hnd, List.mem_map] at hw
    rcases hw with ⟨p', hp', rfl⟩
    rw [frameRowOf_id]
    exact ⟨hp', hq⟩
  · rintro ⟨hp, hq⟩
    refine ⟨frameRowOf dem p, ?_, hq, frameRowOf_id dem p⟩
    rw [frameStep_rows_of_wf dem src hwf hnd]
    exact List.mem_map_of_mem _ hp

theorem oneFilterPred_registry (cfg : Config) (cols : List String) (rcol : String)
    (hreg : resolveFilterField cfg "registry" cols = some rcol) (v : FilterValue) :
    oneFilterPred cfg cols "registry" v =
      (if registryTruthy v then fun r => peq (r rcol) (Value.bool true)
       else fun r => !peq (r rcol) (Value.bool true)) := by
  simp [oneFilterPred, hreg]

/-- C2.  Against the same source cohort, the `registry=True` and
`registry=False` filters partition the source's patient set: the two
result cohorts are disjoint and their union is the source — every
patient, those with null or missing registry values included, lands in
exactly one bucket (null in the `False` one).  Hypotheses: the source
cohort has the shape every stored cohort has, demographics carries at
most one row per patient (the spec's unique patient key), and the
registry column resolves in the working frame. -/
theorem registry_partition (m : Manager) (source n1 n2 : String) (src : DF)
    (m1 m2 : Manager) (r1 r2 : DF) (rcol : String)
    (hsrc : lookupKey source m.cohorts = some src)
    (hwf : CohortWF src)
    (hnd : (m.demographics.rows.map (fun d => d "FACPATID")).Nodup)
    (hreg : resolveFilterField m.cfg "registry" (frameStep m.demographics src).cols = some rcol)
    (h1 : CohortManager.filter_cohort m source n1
      [("registry", FilterValue.scalar (Value.bool true))] none = Except.ok (m1, r1))
    (h2 : CohortManager.filter_cohort m source n2
      [("registry", FilterValue.scalar (Value.bool false))] none = Except.ok (m2, r2)) :
    (∀ p, ¬ (p ∈ ids r1 ∧ p ∈ ids r2)) ∧
      (∀ p, p ∈ ids src ↔ (p ∈ ids r1 ∨ p ∈ ids r2)) := by
  obtain ⟨s1, hs1, _, hr1, _⟩ := filter_cohort_ok_inv m source n1 _ none m1 r1 h1
  obtain ⟨s2, hs2, _, hr2, _⟩ := filter_cohort_ok_inv m source n2 _ none m2 r2 h2
  rw [hsrc] at hs1 hs2
  injection hs1 with he1
  injection hs2 with he2
  subst he1
  subst he2
  have hstep : ∀ v : Value,
      filterStep m.cfg [("registry", FilterValue.scalar v)] (frameStep m.demographics src)
        = (frameStep m.demographics src).filterRows
            (oneFilterPred m.cfg (frameStep m.demographics src).cols "registry"
              (FilterValue.scalar v)) := by
    intro v
    simp only [filterStep, List.foldl_cons, List.foldl_nil]
    exact applyOneFilter_eq m.cfg _ "registry" (FilterValue.scalar v)
  have hm1 : ∀ p, p ∈ ids r1 ↔ p ∈ ids src ∧ peq (frameRowOf m.demographics p rcol) (Value.bool true) = true := by
    intro p
    rw [hr1, mem_ids_toCohortDF]
    show p ∈ ids (filterStep m.cfg _ (frameStep m.demographics src)) ↔ _
    rw [hstep, oneFilterPred_registry m.cfg _ rcol hreg]
    rw [mem_ids_filter_frame m.demographics src hwf hnd]
    simp [registryTruthy]
  have hm2 : ∀ p, p ∈ ids r2 ↔ p ∈ ids src ∧ (!peq (frameRowOf m.demographics p rcol) (Value.bool true)) = true := by
    intro p
    rw [hr2, mem_ids_toCohortDF]
    show p ∈ ids (filterStep m.cfg _ (frameStep m.demographics src)) ↔ _
    rw [hstep, oneFilterPred_registry m.cfg _ rcol hreg]
    rw [mem_ids_filter_frame m.demographics src hwf hnd]
    simp [registryTruthy]
  constructor
  · rintro p ⟨hp1, hp2⟩
    have a1 := (hm1 p).1 hp1
    have a2 := (hm2 p).1 hp2
    rw [a1.2] at a2
    exact absurd a2.2 (by simp)
  · intro p
    constructor
    · intro hp
      cases hb : peq (frameRowOf m.demographics p rcol) (Value.bool true) with
      | true => exact Or.inl ((hm1 p).2 ⟨hp, hb⟩)
      | false => exact Or.inr ((hm2 p).2 ⟨hp, by rw [hb]; rfl⟩)
    · rintro (hp | hp)
      · exact ((hm1 p).1 hp).1
      · exact ((hm2 p).1 hp).1

theorem srcW_wf : CohortWF srcW := by
  refine ⟨rfl, ?_, by decide⟩
  intro r hr
  simp only [srcW, List.mem_cons, List.not_mem_nil, or_false] at hr
  rcases hr with rfl | rfl | rfl | rfl <;> rfl

def outC2a : Except String (Manager × DF) :=
  CohortManager.filter_cohort mW "base" "usndr_bucket"
    [("registry", FilterValue.scalar (Value.bool true))] none

def mC2a : Manager := match outC2a with | Except.ok (x, _) => x | Except.error _ => mW

def resC2a : DF := match outC2a with | Except.ok (_, r) => r | Except.error _ => emptyDF

def outC2b : Except String (Manager × DF) :=
  CohortManager.filter_cohort mW "base" "datahub_bucket"
    [("registry", FilterValue.scalar (Value.bool false))] none

def mC2b : Manager := match outC2b with | Except.ok (x, _) => x | Except.error _ => mW

def resC2b : DF := match outC2b with | Except.ok (_, r) => r | Except.error _ => emptyDF

/-- Witness for C2 at a concrete store containing a null-registry
patient: the two registry buckets are disjoint and jointly exhaust the
base cohort. -/
theorem registry_partition_witness :
    (∀ p, ¬ (p ∈ ids resC2a ∧ p ∈ ids resC2b)) ∧
      (∀ p, p ∈ ids srcW ↔ (p ∈ ids resC2a ∨ p ∈ ids resC2b)) :=
  registry_partition mW "base" "usndr_bucket" "datahub_bucket" srcW mC2a mC2b
    resC2a resC2b "usndr" rfl srcW_wf (by decide) rfl rfl rfl

/-! ## Conjunctive composition of filters (C3) -/

theorem filterRows_filterRows (df : DF) (p q : Row → Bool) :
    (df.filterRows p).filterRows q = df.filterRows (fun r => q r && p r) := by
  unfold DF.filterRows
  simp only [List.filter_filter]

theorem filterStep_one (cfg : Config) (f : String) (v : FilterValue) (df : DF) :
    filterStep cfg [(f, v)] df = df.filterRows (oneFilterPred cfg df.cols f v) := by
  simp only [filterStep, List.foldl_cons, List.foldl_nil]
  exact applyOneFilter_eq cfg df f v

theorem filterStep_two (cfg : Config) (f1 : String) (v1 : FilterValue) (f2 : String)
    (v2 : FilterValue) (df : DF) :
    filterStep cfg [(f1, v1), (f2, v2)] df =
      df.filterRows (fun r =>
        oneFilterPred cfg df.cols f2 v2 r && oneFilterPred cfg df.cols f1 v1 r) := by
  simp only [filterStep, List.foldl_cons, List.foldl_nil]
  rw [applyOneFilter_eq, applyOneFilter_eq]
  exact filterRows_filterRows df _ _

theorem frameStep_cols_congr (dem : DF) (a b : DF) (h : a.cols = b.cols) :
    (frameStep dem a).cols = (frameStep dem b).cols := by
  unfold frameStep
  by_cases he : dem.isEmptyDF
  · simp [he, h]
  · simp [he, merge, h]

/-- C3.  Filters compose conjunctively across calls: filtering a cohort
by one field/value pair and then filtering the result by a second pair
(distinct field, as the combined Python dict requires) yields the same
patient set as one `filter_cohort` call carrying both pairs.  Hypotheses
as in C2: stored-cohort shape for the source and demographics with at
most one row per patient. -/
theorem filters_compose (m : Manager) (source n1 n2 n3 : String) (src : DF)
    (f1 f2 : String) (v1 v2 : FilterValue) (m1 m2 m3 : Manager) (c1 c2 c3 : DF)
    (_hne : f1 ≠ f2)
    (hsrc : lookupKey source m.cohorts = some src)
    (hwf : CohortWF src)
    (hnd : (m.demographics.rows.map (fun d => d "FACPATID")).Nodup)
    (h1 : CohortManager.filter_cohort m source n1 [(f1, v1)] none = Except.ok (m1, c1))
    (h2 : CohortManager.filter_cohort m1 n1 n2 [(f2, v2)] none = Except.ok (m2, c2))
    (h3 : CohortManager.filter_cohort m source n3 [(f1, v1), (f2, v2)] none
      = Except.ok (m3, c3)) :
    ∀ p, p ∈ ids c2 ↔ p ∈ ids c3 := by
  obtain ⟨s1, hs1, _, hr1, hm1⟩ := filter_cohort_ok_inv m source n1 [(f1, v1)] none m1 c1 h1
  rw [hsrc] at hs1
  injection hs1 with he
  subst he
  obtain ⟨s2, hs2, _, hr2, _⟩ := filter_cohort_ok_inv m1 n1 n2 [(f2, v2)] none m2 c2 h2
  obtain ⟨s3, hs3, _, hr3, _⟩ :=
    filter_cohort_ok_inv m source n3 [(f1, v1), (f2, v2)] none m3 c3 h3
  rw [hsrc] at hs3
  injection hs3 with he
  subst he
  subst hm1
  rw [show ({ m with cohorts := setKey n1 c1 m.cohorts } : Manager).cohorts
      = setKey n1 c1 m.cohorts from rfl, lookupKey_setKey_self] at hs2
  injection hs2 with he
  subst he
  have hr1' : c1 = toCohortDF (filterStep m.cfg [(f1, v1)] (frameStep m.demographics src)) := hr1
  have hr2' : c2 = toCohortDF (filterStep m.cfg [(f2, v2)] (frameStep m.demographics c1)) := hr2
  have hr3' : c3 = toCohortDF
      (filterStep m.cfg [(f1, v1), (f2, v2)] (frameStep m.demographics src)) := hr3
  have hwf1 : CohortWF c1 := hr1' ▸ toCohortDF_wf _
  have hcols : (frameStep m.demographics c1).cols = (frameStep m.demographics src).cols := by
    refine frameStep_cols_congr m.demographics c1 src ?_
    rw [hr1', hwf.cols_eq]
    rfl
  have hc1mem : ∀ p, p ∈ ids c1 ↔ p ∈ ids src ∧
      oneFilterPred m.cfg (frameStep m.demographics src).cols f1 v1
        (frameRowOf m.demographics p) = true := by
    intro p
    rw [hr1', filterStep_one, mem_ids_toCohortDF,
      mem_ids_filter_frame m.demographics src hwf hnd]
  have hc2mem : ∀ p, p ∈ ids c2 ↔ p ∈ ids c1 ∧
      oneFilterPred m.cfg (frameStep m.demographics src).cols f2 v2
        (frameRowOf m.demographics p) = true := by
    intro p
    rw [hr2', filterStep_one, mem_ids_toCohortDF, hcols,
      mem_ids_filter_frame m.demographics c1 hwf1 hnd]
  have hc3mem : ∀ p, p ∈ ids c3 ↔ p ∈ ids src ∧
      (oneFilterPred m.cfg (frameStep m.demographics src).cols f2 v2
          (frameRowOf m.demographics p) &&
        oneFilterPred m.cfg (frameStep m.demographics src).cols f1 v1
          (frameRowOf m.demographics p)) = true := by
    intro p
    rw [hr3', filterStep_two, mem_ids_toCohortDF,
      mem_ids_filter_frame m.demographics src hwf hnd]
  intro p
  rw [hc2mem p, hc1mem p, hc3mem p, Bool.and_eq_true]
  tauto

def outC3a : Except String (Manager × DF) :=
  CohortManager.filter_cohort mW "base" "dmd_a"
    [("disease", FilterValue.scalar (Value.str "DMD"))] none

def mC3a : Manager := match outC3a with | Except.ok (x, _) => x | Except.error _ => mW

def resC3a : DF := match outC3a with | Except.ok (_, r) => r | Except.error _ => emptyDF

def outC3b : Except String (Manager × DF) :=
  CohortManager.filter_cohort mC3a "dmd_a" "dmd_f"
    [("gender", FilterValue.scalar (Value.str "F"))] none

def mC3b : Manager := match outC3b with | Except.ok (x, _) => x | Except.error _ => mW

def resC3b : DF := match outC3b with | Except.ok (_, r) => r | Except.error _ => emptyDF

def outC3c : Except String (Manager × DF) :=
  CohortManager.filter_cohort mW "base" "dmd_f_direct"
    [("disease", FilterValue.scalar (Value.str "DMD")),
     ("gender", FilterValue.scalar (Value.str "F"))] none

def mC3c : Manager := match outC3c with | Except.ok (x, _) => x | Except.error _ => mW

def resC3c : DF := match outC3c with | Except.ok (_, r) => r | Except.error _ => emptyDF

/-- Witness for C3 at a concrete store: filtering by disease and then by
gender agrees with the single two-filter call on patient P2. -/
theorem filters_compose_witness :
    Value.str "P2" ∈ ids resC3b ↔ Value.str "P2" ∈ ids resC3c :=
  filters_compose mW "base" "dmd_a" "dmd_f" "dmd_f_direct" srcW
    "disease" "gender" (FilterValue.scalar (Value.str "DMD"))
    (FilterValue.scalar (Value.str "F")) mC3a mC3b mC3c resC3a resC3b resC3c
    (by decide) rfl srcW_wf (by decide) rfl rfl rfl (Value.str "P2")

/-! ## Enrollment validation (C4, C6) -/

theorem foldl_filter_mem (ts : List (List Value)) (s : List Value) (p : Value) :
    p ∈ ts.foldl (fun acc t => acc.filter (fun x => decide (x ∈ t))) s ↔
      p ∈ s ∧ ∀ t ∈ ts, p ∈ t := by
  induction ts generalizing s with
  | nil => simp
  | cons t ts ih =>
    rw [List.foldl_cons, ih]
    simp only [List.mem_filter, List.mem_cons, decide_eq_true_eq]
    constructor
    · rintro ⟨⟨h1, h2⟩, h3⟩
      exact ⟨h1, fun t' ht' => by rcases ht' with rfl | ht'; exact h2; exact h3 t' ht'⟩
    · rintro ⟨h1, h2⟩
      exact ⟨⟨h1, h2 t (Or.inl rfl)⟩, fun t' ht' => h2 t' (Or.inr ht')⟩

theorem foldl_filter_nodup (ts : List (List Value)) (s : List Value) (h : s.Nodup) :
    (ts.foldl (fun acc t => acc.filter (fun x => decide (x ∈ t))) s).Nodup := by
  induction ts generalizing s with
  | nil => exact h
  | cons t ts ih => exact ih _ (List.Nodup.filter _ h)

theorem nodup_uniqueVals (df : DF) (col : String) : (uniqueVals df col).Nodup :=
  nodup_dedupFirst _

theorem get_enrolled_eq_error (tables : Tables) (required : List String)
    (h : required.filterMap
      (fun f => (lookupKey f tables).map (fun df => uniqueVals df "FACPATID")) = []) :
    EnrollmentValidator.get_enrolled_patients tables required =
      Except.error "No required forms found in tables" := by
  unfold EnrollmentValidator.get_enrolled_patients
  rw [h]

theorem get_enrolled_eq_ok (tables : Tables) (required : List String)
    (s : List Value) (rest : List (List Value))
    (h : required.filterMap
      (fun f => (lookupKey f tables).map (fun df => uniqueVals df "FACPATID")) = s :: rest) :
    EnrollmentValidator.get_enrolled_patients tables required =
      Except.ok (rest.foldl (fun acc t => acc.filter (fun p => decide (p ∈ t))) s) := by
  unfold EnrollmentValidator.get_enrolled_patients
  rw [h]

/-- C4.  `get_enrolled_patients` raises exactly when none of the
required forms is present in the Tabular Store, and otherwise returns
exactly the identifiers present in every required form that exists
there (absent forms silently shrink the effective required set). -/
theorem get_enrolled_patients_spec (tables : Tables) (required : List String) :
    ((∃ e, EnrollmentValidator.get_enrolled_patients tables required = Except.error e) ↔
      ∀ f ∈ required, lookupKey f tables = none) ∧
    (∀ l, EnrollmentValidator.get_enrolled_patients tables required = Except.ok l →
      ∀ p, p ∈ l ↔ ∀ f ∈ required, ∀ df, lookupKey f tables = some df →
        p ∈ uniqueVals df "FACPATID") := by
  have hmem : ∀ x, x ∈ required.filterMap
      (fun f => (lookupKey f tables).map (fun df => uniqueVals df "FACPATID")) ↔
      ∃ f ∈ required, ∃ df, lookupKey f tables = some df ∧ x = uniqueVals df "FACPATID" := by
    intro x
    rw [List.mem_filterMap]
    constructor
    · rintro ⟨f, hf, hx⟩
      rcases Option.map_eq_some'.1 hx with ⟨df, hdf, hval⟩
      exact ⟨f, hf, df, hdf, hval.symm⟩
    · rintro ⟨f, hf, df, hdf, rfl⟩
      exact ⟨f, hf, by rw [hdf]; rfl⟩
  cases hps : required.filterMap
      (fun f => (lookupKey f tables).map (fun df => uniqueVals df "FACPATID")) with
  | nil =>
    rw [get_enrolled_eq_error tables required hps]
    constructor
    · constructor
      · intro _ f hf
        have := List.filterMap_eq_nil_iff.1 hps f hf
        cases hlf : lookupKey f tables with
        | none => rfl
        | some df => rw [hlf] at this; exact absurd this (by simp)
      · intro _
        exact ⟨"No required forms found in tables", rfl⟩
    · intro l hl
      exact absurd hl (by simp)
  | cons s rest =>
    rw [get_enrolled_eq_ok tables required s rest hps]
    constructor
    · constructor
      · rintro ⟨e, he⟩
        exact absurd he (by simp)
      · intro hall
        have hs : s ∈ required.filterMap
            (fun f => (lookupKey f tables).map (fun df => uniqueVals df "FACPATID")) := by
          rw [hps]; exact List.mem_cons_self s rest
        rcases (hmem s).1 hs with ⟨f, hf, df, hdf, _⟩
        rw [hall f hf] at hdf
        exact absurd hdf (by simp)
    · intro l hl p
      injection hl with hl
      subst hl
      rw [foldl_filter_mem]
      constructor
      · rintro ⟨hp1, hp2⟩ f hf df hdf
        have hx : uniqueVals df "FACPATID" ∈ required.filterMap
            (fun f => (lookupKey f tables).map (fun df => uniqueVals df "FACPATID")) :=
          (hmem _).2 ⟨f, hf, df, hdf, rfl⟩
        rw [hps, List.mem_cons] at hx
        rcases hx with hx | hx
        · exact hx ▸ hp1
        · exact hp2 _ hx
      · intro hall
        have hget : ∀ x ∈ required.filterMap
            (fun f => (lookupKey f tables).map (fun df => uniqueVals df "FACPATID")),
            p ∈ x := by
          intro x hx
          rcases (hmem x).1 hx with ⟨f, hf, df, hdf, rfl⟩
          exact hall f hf df hdf
        constructor
        · exact hget s (by rw [hps]; exact List.mem_cons_self s rest)
        · intro t ht
          exact hget t (by rw [hps]; exact List.mem_cons_of_mem s ht)

def enrolledW : List Value :=
  match EnrollmentValidator.get_enrolled_patients mW.tables
    ["demographics_maindata", "missing_form"] with
  | Except.ok l => l
  | Except.error _ => []

/-- Witness for C4 at the concrete store: with one present and one
absent required form, the call succeeds and P1 is enrolled (it appears
in every present required form). -/
theorem get_enrolled_patients_spec_witness : Value.str "P1" ∈ enrolledW :=
  ((get_enrolled_patients_spec mW.tables ["demographics_maindata", "missing_form"]).2
    enrolledW rfl (Value.str "P1")).mpr (by
      intro f hf df hdf
      simp only [List.mem_cons, List.not_mem_nil, or_false] at hf
      rcases hf with rfl | rfl
      · have hd : lookupKey "demographics_maindata" mW.tables = some demW := rfl
        rw [hd] at hdf
        injection hdf with hdf
        subst hdf
        decide
      · have hn : lookupKey "missing_form" mW.tables = none := rfl
        rw [hn] at hdf
        exact absurd hdf (by simp))

theorem nodup_formPatients (tables : Tables) (f : String) :
    (formPatients tables f).Nodup := by
  unfold formPatients
  cases lookupKey f tables with
  | none => exact List.nodup_nil
  | some df => exact nodup_uniqueVals df "FACPATID"

/-- C6.  The enrollment report is the advertised set algebra:
`total_unique_patients` is the cardinality of the union of the per-form
patient sets (absent forms contributing the empty set), the enrolled
list is the intersection of all per-form sets (empty required list
giving the empty intersection), `enrolled_count` its cardinality,
`form_counts` the per-form distinct-patient counts, `missing_by_form`
per-form counts — not lists — of universe members missing from the
form, and an empty required-form list produces the all-zero report
rather than an error. -/
theorem validate_enrollment_spec (tables : Tables) (required : List String) :
    let rep := EnrollmentValidator.validate_enrollment tables required
    let uniF := required.toFinset.biUnion (fun f => (formPatients tables f).toFinset)
    rep.total_unique_patients = uniF.card ∧
    (∀ p, p ∈ rep.enrolled_patients ↔
      (required ≠ [] ∧ ∀ f ∈ required, p ∈ formPatients tables f)) ∧
    rep.enrolled_count =
      (uniF.filter (fun p => ∀ f ∈ required, p ∈ formPatients tables f)).card ∧
    (∀ f ∈ required, rep.form_counts f = some (formPatients tables f).toFinset.card) ∧
    (∀ f ∈ required,
      rep.missing_by_form f = some ((uniF \ (formPatients tables f).toFinset).card)) ∧
    (∀ f, f ∉ required → rep.form_counts f = none ∧ rep.missing_by_form f = none) ∧
    (required = [] → rep.total_unique_patients = 0 ∧ rep.enrolled_count = 0 ∧
      rep.enrolled_patients = []) := by
  intro rep uniF
  have huni : rep.total_unique_patients =
      (dedupFirst ((required.map (fun f => formPatients tables f)).flatten)).length := rfl
  have henr : rep.enrolled_patients =
      (match required.map (fun f => formPatients tables f) with
        | [] => ([] : List Value)
        | s :: rest => rest.foldl (fun acc t => acc.filter (fun p => decide (p ∈ t))) s) := rfl
  have hcount : rep.enrolled_count = rep.enrolled_patients.length := rfl
  have hmemuni : ∀ p, p ∈ dedupFirst ((required.map (fun f => formPatients tables f)).flatten)
      ↔ ∃ f ∈ required, p ∈ formPatients tables f := by
    intro p
    rw [mem_dedupFirst]
    simp [List.mem_flatten, List.mem_map]
  have htoF : (dedupFirst ((required.map (fun f => formPatients tables f)).flatten)).toFinset
      = uniF := by
    ext p
    rw [List.mem_toFinset, hmemuni p]
    show (∃ f ∈ required, p ∈ formPatients tables f) ↔
      p ∈ required.toFinset.biUnion (fun f => (formPatients tables f).toFinset)
    simp [Finset.mem_biUnion, List.mem_toFinset]
  have hmemenr : ∀ p, p ∈ rep.enrolled_patients ↔
      (required ≠ [] ∧ ∀ f ∈ required, p ∈ formPatients tables f) := by
    intro p
    rw [henr]
    cases required with
    | nil => simp
    | cons f0 fs =>
      simp only [List.map_cons]
      rw [foldl_filter_mem]
      simp only [ne_eq, reduceCtorEq, not_false_eq_true, true_and, List.mem_cons]
      constructor
      · rintro ⟨h1, h2⟩ f hf
        rcases hf with rfl | hf
        · exact h1
        · exact h2 _ (List.mem_map_of_mem _ hf)
      · intro h
        refine ⟨h f0 (Or.inl rfl), ?_⟩
        intro t ht
        rcases List.mem_map.1 ht with ⟨f, hf, rfl⟩
        exact h f (Or.inr hf)
  have hnodenr : rep.enrolled_patients.Nodup := by
    rw [henr]
    cases required with
    | nil => exact List.nodup_nil
    | cons f0 fs =>
      simp only [List.map_cons]
      exact foldl_filter_nodup _ _ (nodup_formPatients tables f0)
  refine ⟨?_, hmemenr, ?_, ?_, ?_, ?_, ?_⟩
  · rw [huni, ← List.toFinset_card_of_nodup (nodup_dedupFirst _), htoF]
  · rw [hcount, ← List.toFinset_card_of_nodup hnodenr]
    congr 1
    ext p
    rw [List.mem_toFinset, hmemenr p, Finset.mem_filter]
    constructor
    · rintro ⟨h1, h2⟩
      refine ⟨?_, h2⟩
      rw [← htoF, List.mem_toFinset, hmemuni p]
      cases required with
      | nil => exact absurd rfl h1
      | cons f0 fs => exact ⟨f0, List.mem_cons_self f0 fs, h2 f0 (List.mem_cons_self f0 fs)⟩
    · rintro ⟨h1, h2⟩
      refine ⟨?_, h2⟩
      rw [← htoF, List.mem_toFinset, hmemuni p] at h1
      rcases h1 with ⟨f, hf, _⟩
      intro he
      rw [he] at hf
      exact List.not_mem_nil f hf
  · intro f hf
    have : rep.form_counts f = some (formPatients tables f).length := by
      show (if f ∈ required then some (formPatients tables f).length else none) = _
      rw [if_pos hf]
    rw [this, List.toFinset_card_of_nodup (nodup_formPatients tables f)]
  · intro f hf
    have hval : rep.missing_by_form f = some
        (((dedupFirst ((required.map (fun g => formPatients tables g)).flatten)).filter
          (fun p => decide (p ∉ formPatients tables f))).length) := by
      show (if f ∈ required then some _ else none) = _
      rw [if_pos hf]
    rw [hval]
    congr 1
    rw [← List.toFinset_card_of_nodup (List.Nodup.filter _ (nodup_dedupFirst _))]
    congr 1
    ext p
    rw [List.mem_toFinset, List.mem_filter, Finset.mem_sdiff, ← htoF, List.mem_toFinset,
      List.mem_toFinset]
    simp
  · intro f hf
    constructor
    · show (if f ∈ required then some _ else none) = none
      rw [if_neg hf]
    · show (if f ∈ required then some _ else none) = none
      rw [if_neg hf]
  · intro he
    subst he
    exact ⟨rfl, rfl, rfl⟩

def repW : Report :=
  EnrollmentValidator.validate_enrollment mW.tables ["demographics_maindata"]

/-- Witness for C6 at the concrete store: P1 is enrolled and the
demographics form counts its four distinct patients. -/
theorem validate_enrollment_spec_witness :
    Value.str "P1" ∈ repW.enrolled_patients ∧
      repW.form_counts "demographics_maindata" = some 4 := by
  have h := validate_enrollment_spec mW.tables ["demographics_maindata"]
  unfold repW
  refine ⟨(h.2.1 (Value.str "P1")).mpr ⟨by decide, by decide⟩, ?_⟩
  have h4 := h.2.2.2.1 "demographics_maindata" (by decide)
  rw [h4]
  decide

/-! ## Three-tier field resolution (C7) -/

/-- C7.  `FieldResolver.resolve` is the three-tier priority lookup: the
configured (or builtin-default) mapped physical name wins whenever it is
a (non-empty) column of the dataset; only otherwise does the resolver
fall through to the late tiers, where the first case-insensitive column
match wins, and failing that the first hardcoded synonym present as a
column (yielding nothing when that also fails). -/
theorem resolve_three_tier (cfg : Config) (canonical : String) (cols : List String) :
    (∀ p, pyOrOpt (cfg canonical) (DEFAULT_MAPPINGS canonical) = some p → p ≠ "" →
      p ∈ cols → FieldResolver.resolve cfg canonical cols = some p) ∧
    ((¬ ∃ p, pyOrOpt (cfg canonical) (DEFAULT_MAPPINGS canonical) = some p ∧ p ≠ "" ∧
        p ∈ cols) →
      FieldResolver.resolve cfg canonical cols = resolveLate canonical cols) ∧
    (∀ c, cols.find? (fun c' => decide (strLower c' = strLower canonical)) = some c →
      resolveLate canonical cols = some c) ∧
    (cols.find? (fun c' => decide (strLower c' = strLower canonical)) = none →
      resolveLate canonical cols = (fallbacks canonical).find? (fun f => decide (f ∈ cols))) := by
  refine ⟨?_, ?_, ?_, ?_⟩
  · intro p hp hne hin
    unfold FieldResolver.resolve
    rw [hp]
    show (if p ≠ "" ∧ p ∈ cols then some p else resolveLate canonical cols) = some p
    rw [if_pos ⟨hne, hin⟩]
  · intro hnot
    unfold FieldResolver.resolve
    cases hm : pyOrOpt (cfg canonical) (DEFAULT_MAPPINGS canonical) with
    | none => rfl
    | some mapped =>
      show (if mapped ≠ "" ∧ mapped ∈ cols then some mapped else resolveLate canonical cols)
        = resolveLate canonical cols
      rw [if_neg (fun hc => hnot ⟨mapped, hm, hc.1, hc.2⟩)]
  · intro c hc
    unfold resolveLate
    rw [hc]
  · intro hc
    unfold resolveLate
    rw [hc]

/-- Witness for C7: with no configuration, the default mapping
disease → dstype beats the earlier case-insensitive column DISEASE. -/
theorem resolve_three_tier_witness :
    FieldResolver.resolve cfgW "disease" ["DISEASE", "dstype"] = some "dstype" :=
  (resolve_three_tier cfgW "disease" ["DISEASE", "dstype"]).1 "dstype" rfl
    (by decide) (by decide)

/-! ## Literal column precedence (C9) -/

/-- C9.  In the filter (and summary) field resolution, a field name that
is literally a column of the working frame is used directly, taking
precedence over any canonical mapping, and for a non-registry field the
filter is then applied to exactly that column. -/
theorem direct_column_precedence (cfg : Config) (field : String) (df : DF)
    (hcol : field ∈ df.cols) (hreg : field ≠ "registry") :
    resolveFilterField cfg field df.cols = some field ∧
    (∀ v, applyOneFilter cfg df field v = applyValueFilter field v df) := by
  have h1 : resolveFilterField cfg field df.cols = some field := by
    unfold resolveFilterField
    rw [if_pos hcol]
  refine ⟨h1, fun v => ?_⟩
  unfold applyOneFilter
  rw [if_neg hreg, h1]

def cfg9 : Config := fun c => if c = "gender" then some "sex" else none

def df9 : DF :=
  ⟨["FACPATID", "gender", "sex"],
   [fun c => if c = "FACPATID" then Value.str "P1"
     else if c = "gender" then Value.str "F"
     else if c = "sex" then Value.str "M" else Value.null]⟩

/-- Witness for C9: although the configuration maps gender to the also
present column sex, the literal column gender is used. -/
theorem direct_column_precedence_witness :
    resolveFilterField cfg9 "gender" df9.cols = some "gender" ∧
    (∀ v, applyOneFilter cfg9 df9 "gender" v = applyValueFilter "gender" v df9) :=
  direct_column_precedence cfg9 "gender" df9 (by decide) (by decide)

/-! ## Age derivation and its effect on summaries (C5) -/

theorem get_cohort_summary_empty (m : Manager) (name : String) (cohort : DF)
    (hl : lookupKey name m.cohorts = some cohort)
    (he : m.demographics.isEmptyDF = true) :
    CohortManager.get_cohort_summary m name =
      Except.ok { sname := name, n_patients := cohort.rows.length } := by
  unfold CohortManager.get_cohort_summary
  split
  · rename_i heq
    rw [heq] at hl
    exact absurd hl (by simp)
  · rename_i cohort' heq
    rw [heq] at hl
    injection hl with hl
    subst hl
    rw [he]
    simp

theorem get_cohort_summary_ok (m : Manager) (name : String) (cohort : DF)
    (hl : lookupKey name m.cohorts = some cohort)
    (hne : m.demographics.isEmptyDF = false)
    (hc1 : "FACPATID" ∈ cohort.cols) (hc2 : "FACPATID" ∈ m.demographics.cols) :
    ∃ st, CohortManager.get_cohort_summary m name = Except.ok st ∧
      st.n_patients = cohort.rows.length ∧
      st.age_stats = (match resolveFilterField m.cfg "age" (merge cohort m.demographics).cols with
        | none => none
        | some c => ageStatsOf ((merge cohort m.demographics).rows.map (fun r => r c))) := by
  have h : CohortManager.get_cohort_summary m name = Except.ok
      { sname := name
        n_patients := cohort.rows.length
        gender_distribution := (resolveFilterField m.cfg "gender" (merge cohort m.demographics).cols).map
          (fun c => valueCounts ((merge cohort m.demographics).rows.map (fun r => r c)))
        age_stats :=
          match resolveFilterField m.cfg "age" (merge cohort m.demographics).cols with
          | none => none
          | some c => ageStatsOf ((merge cohort m.demographics).rows.map (fun r => r c))
        disease_distribution := (resolveFilterField m.cfg "disease" (merge cohort m.demographics).cols).map
          (fun c => valueCounts ((merge cohort m.demographics).rows.map (fun r => r c)))
        registry_distribution := (resolveFilterField m.cfg "registry" (merge cohort m.demographics).cols).map
          (fun c =>
            let u := ((merge cohort m.demographics).rows.filter
              (fun r => peq (r c) (Value.bool true))).length
            (u, (merge cohort m.demographics).rows.length - u)) } := by
    unfold CohortManager.get_cohort_summary
    split
    · rename_i heq
      rw [heq] at hl
      exact absurd hl (by simp)
    · rename_i cohort' heq
      rw [heq] at hl
      injection hl with hl
      subst hl
      rw [hne]
      have hcond : ¬ ("FACPATID" ∉ cohort'.cols ∨ "FACPATID" ∉ m.demographics.cols) := by
        rw [not_or]
        exact ⟨Decidable.not_not.2 hc1, Decidable.not_not.2 hc2⟩
      rw [if_neg (by simp : ¬ (false = true)), if_neg hcond]
  exact ⟨_, h, rfl, rfl⟩

theorem ageStatsOf_append_nulls (vals extra : List Value)
    (h : ∀ v ∈ extra, v = Value.null) :
    ageStatsOf (vals ++ extra) = ageStatsOf vals := by
  unfold ageStatsOf
  rw [List.filter_append]
  have : extra.filter (fun v => decide (v ≠ Value.null)) = [] := by
    rw [List.filter_eq_nil_iff]
    intro v hv
    rw [h v hv]
    simp
  rw [this, List.append_nil]

/-- C5.  With a resolvable birth-date column and no pre-existing AGE
column, the manager's one-time demographics preparation appends the AGE
column computed per row as `(today - dob).days / 365.25` rounded to one
decimal, null exactly when the birth date is null or unparseable; and in
`get_cohort_summary`, extending a cohort by a patient whose birth date
does not parse leaves the age statistics unchanged while still counting
the patient — null ages are excluded from the statistics but their rows
stay cohort members. -/
theorem age_computation_spec (cfg : Config) (parse : Value → Option Int) (today : Int)
    (tables : Tables) (df : DF) (dc : String) (B : List (String × DF))
    (nameA nameB : String) (c : DF) (p : Value)
    (hdf : lookupKey "demographics_maindata" tables = some df)
    (hdc : FieldResolver.resolve cfg "birth_date" df.cols = some dc)
    (hage : "AGE" ∉ df.cols)
    (hdcne : dc ≠ "FACPATID")
    (hFID : "FACPATID" ∈ df.cols)
    (hA : lookupKey nameA B = some c)
    (hB : lookupKey nameB B = some ⟨c.cols, c.rows ++ [canonRow p]⟩)
    (hccols : c.cols = ["FACPATID"])
    (hacol : resolveFilterField cfg "age" (merge c (addAge dc parse today df)).cols
      = some "AGE")
    (hnull : ∀ r ∈ df.rows, r "FACPATID" = p → parse (r dc) = none) :
    prepare_demographics cfg parse today tables = some (addAge dc parse today df) ∧
    (addAge dc parse today df).cols = df.cols ++ ["AGE"] ∧
    (∀ i (hi : i < df.rows.length) (hi2 : i < (addAge dc parse today df).rows.length),
      (∀ d, parse (df.rows[i] dc) = some d →
        (addAge dc parse today df).rows[i] "AGE" =
          Value.num (round1 (((today - d : Int) : ℚ) / (365.25 : ℚ)))) ∧
      (parse (df.rows[i] dc) = none →
        (addAge dc parse today df).rows[i] "AGE" = Value.null)) ∧
    (∃ sA sB,
      CohortManager.get_cohort_summary
        ⟨cfg, tables, addAge dc parse today df, B⟩ nameA = Except.ok sA ∧
      CohortManager.get_cohort_summary
        ⟨cfg, tables, addAge dc parse today df, B⟩ nameB = Except.ok sB ∧
      sB.age_stats = sA.age_stats ∧ sB.n_patients = sA.n_patients + 1) := by
  have hAGEne : ("AGE" : String) ≠ "FACPATID" := by decide
  refine ⟨?_, rfl, ?_, ?_⟩
  · unfold prepare_demographics
    rw [hdf]
    show (match FieldResolver.resolve cfg "birth_date" df.cols with
      | some dobCol =>
        if "AGE" ∈ df.cols then some df else some (addAge dobCol parse today df)
      | none => some df) = some (addAge dc parse today df)
    rw [hdc]
    show (if "AGE" ∈ df.cols then some df else some (addAge dc parse today df))
      = some (addAge dc parse today df)
    rw [if_neg hage]
  · intro i hi hi2
    have hrow : (addAge dc parse today df).rows[i] = ageRow dc parse today (df.rows[i]) := by
      have hi3 : i < (df.rows.map (ageRow dc parse today)).length := hi2
      show (df.rows.map (ageRow dc parse today))[i] = ageRow dc parse today (df.rows[i])
      exact List.getElem_map (ageRow dc parse today)
    constructor
    · intro d hd
      rw [hrow]
      show (if ("AGE" : String) = "AGE" then
          match parse (df.rows[i] dc) with
          | some d => Value.num (ageFromDob today d)
          | none => Value.null
        else if ("AGE" : String) = dc then
          match parse (df.rows[i] dc) with
          | some d => Value.date d
          | none => Value.null
        else df.rows[i] "AGE")
        = Value.num (round1 (((today - d : Int) : ℚ) / (365.25 : ℚ)))
      rw [if_pos rfl, hd]
      rfl
    · intro hd
      rw [hrow]
      show (if ("AGE" : String) = "AGE" then
          match parse (df.rows[i] dc) with
          | some d => Value.num (ageFromDob today d)
          | none => Value.null
        else if ("AGE" : String) = dc then
          match parse (df.rows[i] dc) with
          | some d => Value.date d
          | none => Value.null
        else df.rows[i] "AGE") = Value.null
      rw [if_pos rfl, hd]
  · have hBc : lookupKey nameB
        (⟨cfg, tables, addAge dc parse today df, B⟩ : Manager).cohorts
        = some ⟨c.cols, c.rows ++ [canonRow p]⟩ := hB
    have hAc : lookupKey nameA
        (⟨cfg, tables, addAge dc parse today df, B⟩ : Manager).cohorts = some c := hA
    by_cases hemp : (addAge dc parse today df).isEmptyDF
    · refine ⟨{ sname := nameA, n_patients := c.rows.length },
        { sname := nameB, n_patients := (c.rows ++ [canonRow p]).length }, ?_, ?_, rfl, ?_⟩
      · exact get_cohort_summary_empty _ nameA c hAc hemp
      · exact get_cohort_summary_empty _ nameB ⟨c.cols, c.rows ++ [canonRow p]⟩ hBc hemp
      · simp
    · have hempf : (addAge dc parse today df).isEmptyDF = false := by
        rw [Bool.not_eq_true] at hemp
        exact hemp
      have hFID2 : "FACPATID" ∈ (addAge dc parse today df).cols := by
        show "FACPATID" ∈ df.cols ++ ["AGE"]
        exact List.mem_append_left _ hFID
      have hc1 : "FACPATID" ∈ c.cols := by rw [hccols]; exact List.mem_cons_self _ _
      obtain ⟨sA, eA, enA, eaA⟩ := get_cohort_summary_ok
        ⟨cfg, tables, addAge dc parse today df, B⟩ nameA c hAc hempf hc1 hFID2
      obtain ⟨sB, eB, enB, eaB⟩ := get_cohort_summary_ok
        ⟨cfg, tables, addAge dc parse today df, B⟩ nameB
        ⟨c.cols, c.rows ++ [canonRow p]⟩ hBc hempf hc1 hFID2
      refine ⟨sA, sB, eA, eB, ?_, ?_⟩
      · rw [eaA, eaB]
        have hcolseq : (merge (⟨c.cols, c.rows ++ [canonRow p]⟩ : DF)
            (addAge dc parse today df)).cols
            = (merge c (addAge dc parse today df)).cols := rfl
        rw [hcolseq, hacol]
        show ageStatsOf ((merge (⟨c.cols, c.rows ++ [canonRow p]⟩ : DF)
            (addAge dc parse today df)).rows.map (fun r => r "AGE"))
          = ageStatsOf ((merge c (addAge dc parse today df)).rows.map (fun r => r "AGE"))
        have hsplit : (merge (⟨c.cols, c.rows ++ [canonRow p]⟩ : DF)
            (addAge dc parse today df)).rows
            = (merge c (addAge dc parse today df)).rows ++
              (let ms := (addAge dc parse today df).rows.filter
                (fun d => decide (d "FACPATID" = canonRow p "FACPATID"))
               if ms.isEmpty then [padRow c.cols (canonRow p)]
               else ms.map (joinRow c.cols (addAge dc parse today df).cols (canonRow p))) := by
          show (c.rows ++ [canonRow p]).flatMap _ = _
          rw [List.flatMap_append, List.flatMap_cons, List.flatMap_nil, List.append_nil]
          rfl
        rw [hsplit, List.map_append]
        refine ageStatsOf_append_nulls _ _ ?_
        intro v hv
        rw [List.mem_map] at hv
        rcases hv with ⟨w, hw, rfl⟩
        have hnotinc : ("AGE" : String) ∉ c.cols := by
          rw [hccols]
          intro hmem
          rcases List.mem_singleton.1 hmem with h
          exact hAGEne h
        by_cases hms : ((addAge dc parse today df).rows.filter
            (fun d => decide (d "FACPATID" = canonRow p "FACPATID"))).isEmpty
        · rw [if_pos hms, List.mem_singleton] at hw
          subst hw
          show (if ("AGE" : String) ∈ c.cols then canonRow p "AGE" else Value.null) = Value.null
          rw [if_neg hnotinc]
        · rw [if_neg hms, List.mem_map] at hw
          rcases hw with ⟨d, hd, rfl⟩
          rw [List.mem_filter] at hd
          rcases hd with ⟨hdmem, hdkey⟩
          rw [canonRow_id] at hdkey
          rw [decide_eq_true_eq] at hdkey
          show (if ("AGE" : String) ∈ c.cols then canonRow p "AGE"
            else if ("AGE" : String) ∈ (addAge dc parse today df).cols then d "AGE"
            else Value.null) = Value.null
          rw [if_neg hnotinc, if_pos (by
            show ("AGE" : String) ∈ df.cols ++ ["AGE"]
            exact List.mem_append_right _ (List.mem_singleton.2 rfl))]
          rcases List.mem_map.1 hdmem with ⟨r0, hr0, rfl⟩
          have hkey0 : r0 "FACPATID" = p := by
            have : ageRow dc parse today r0 "FACPATID" = r0 "FACPATID" := by
              show (if ("FACPATID" : String) = "AGE" then _
                else if ("FACPATID" : String) = dc then _ else r0 "FACPATID") = r0 "FACPATID"
              rw [if_neg (fun h => hAGEne h.symm), if_neg (fun h => hdcne h.symm)]
            rw [this] at hdkey
            exact hdkey
          have hparse : parse (r0 dc) = none := hnull r0 hr0 hkey0
          show (if ("AGE" : String) = "AGE" then
            match parse (r0 dc) with
            | some d => Value.num (ageFromDob today d)
            | none => Value.null
            else _) = Value.null
          rw [if_pos rfl, hparse]
      · rw [enA, enB]
        simp

/-- Concrete stand-in for the date parser in the witness: the two
well-formed birth dates of the witness store parse to day numbers,
everything else (null, malformed strings) fails to parse. -/
def parseW : Value → Option Int
  | Value.str "2010-01-01" => some 14610
  | Value.str "2000-06-15" => some 11123
  | _ => none

def cohortA : DF := ⟨["FACPATID"], [canonRow (Value.str "P1")]⟩

def cohortB : DF := ⟨cohortA.cols, cohortA.rows ++ [canonRow (Value.str "P2")]⟩

def BW : List (String × DF) := [("cA", cohortA), ("cB", cohortB)]

def mC5 : Manager := ⟨cfgW, mW.tables, addAge "dob" parseW 20000 demW, BW⟩

/-- Witness for C5: the demographics preparation takes the age branch,
and adding patient P2 — whose birth date does not parse — to a cohort
leaves the age statistics untouched while raising the patient count. -/
theorem age_computation_spec_witness :
    prepare_demographics cfgW parseW 20000 mW.tables
      = some (addAge "dob" parseW 20000 demW) ∧
    ∃ sA sB, CohortManager.get_cohort_summary mC5 "cA" = Except.ok sA ∧
      CohortManager.get_cohort_summary mC5 "cB" = Except.ok sB ∧
      sB.age_stats = sA.age_stats ∧ sB.n_patients = sA.n_patients + 1 := by
  have h := age_computation_spec cfgW parseW 20000 mW.tables demW "dob" BW "cA" "cB"
    cohortA (Value.str "P2") rfl (by decide) (by decide) (by decide) (by decide) rfl rfl rfl
    (by decide) (by
      intro r hr
      simp only [demW, List.mem_cons, List.not_mem_nil, or_false] at hr
      rcases hr with rfl | rfl | rfl | rfl
      · intro hk; exact absurd hk (by decide)
      · intro _; rfl
      · intro hk; exact absurd hk (by decide)
      · intro hk; exact absurd hk (by decide))
  exact ⟨h.1, h.2.2.2⟩
